import Mathlib

/-!
Shallow embedding of the Chatwoot history-import core of this repository
(`src/api/integrations/chatwoot/utils/chatwoot-import-helper.ts`, which
contains two concatenated revisions of the `ChatwootImport` class, plus a
third revision shipped as an unnamed source file).

Naming convention for the three revisions of the class found in the sources:
- `RevA` : first copy in `chatwoot-import-helper.ts` (lines 1-364);
  its `sliceIntoChunks` builds the chunk list and then returns `res.flat()`.
- `RevB` : second copy in `chatwoot-import-helper.ts` (lines 365-750);
  its `sliceIntoChunks` is `messages.splice(0, chunkSize)` (destructive).
- `RevC` : the unnamed source file (`src/unnamed/part_000`);
  its `sliceIntoChunks` is `array.slice(0, chunkSize)` (non-destructive).

JavaScript arrays are modelled as `List`, `Map<string, T>` as
`String → Option T`, machine numbers as `Nat` (all quantities involved are
non-negative integers: timestamps in seconds, row counts, ids), and every
fallible database call is driven by an explicit oracle argument
(`Option` result, `none` meaning the call threw).
-/

/-- Staged chat message (`MessageRaw` as consumed by the importers).
The session identifier `key.remoteJid` has the contracted shape
`"<digits>@<domain>"`; it is modelled as the numeric prefix `jidNum`
(what both `parseInt(key.remoteJid)` and `key.remoteJid.split('@')[0]`
isolate) together with the domain suffix.  `content` models the renderable
text resolved by `message?.message` plus `getContentMessage`: `none` when
the message object is absent or yields no renderable text. -/
structure MessageRaw where
  jidNum : Nat
  jidDomain : String
  messageTimestamp : Nat
  content : Option String
deriving Repr, DecidableEq

/-- Staged chat participant (`ContactRaw` as consumed by the importers):
session identifier `id` (shape `"<digits>@<domain>"`) and `pushName`. -/
structure ContactRaw where
  id : String
  pushName : String
deriving Repr, DecidableEq

/-- Derived phone number key of a staged message.  `RevB` groups messages by
the string `"+" ++ key.remoteJid.split('@')[0]` and sorts them by
`parseInt(key.remoteJid)`; on identifiers of the contracted digit-prefixed
shape both operations isolate the same numeric prefix, modelled by `jidNum`. -/
def phoneOf (m : MessageRaw) : Nat := m.jidNum

/-- Loop `for (let i = 0; i < arr.length; i += chunkSize) res.push(arr.slice(i, i + chunkSize))`
of `RevA.sliceIntoChunks`: the list of chunks accumulated in `res`.
The source iterates with step `chunkSize`; for `chunkSize = 0` the source
loop would never advance, a case no call site exercises (the importers pass
3000/4000), and the model returns `[]` there to stay total. -/
def RevA.sliceLoop (arr : List α) (C : Nat) (i : Nat) : List (List α) :=
  if _h : 0 < C ∧ i < arr.length then
    ((arr.drop i).take C) :: RevA.sliceLoop arr C (i + C)
  else []
termination_by arr.length - i
decreasing_by omega

/-- `RevA.sliceIntoChunks` (`chatwoot-import-helper.ts` lines 355-361):
builds `res` chunk by chunk and then returns `res.flat()`, i.e. a single
flat array rather than the list of chunks. -/
def RevA.sliceIntoChunks (arr : List α) (chunkSize : Nat) : List α :=
  (RevA.sliceLoop arr chunkSize 0).flatten

/-- `RevB.sliceIntoChunks` (`chatwoot-import-helper.ts` lines 649-651):
`messages.splice(0, chunkSize)` removes the first `chunkSize` elements from
the source array and returns them.  Modelled as the pair
(returned chunk, contents the mutated source array is left with). -/
def RevB.sliceIntoChunks (messages : List α) (chunkSize : Nat) : List α × List α :=
  (messages.take chunkSize, messages.drop chunkSize)

/-- `RevC.sliceIntoChunks` (`src/unnamed/part_000` lines 375-377):
`array.slice(0, chunkSize)` — returns the first `chunkSize` elements and
leaves the source array untouched. -/
def RevC.sliceIntoChunks (array : List α) (chunkSize : Nat) : List α :=
  array.take chunkSize

/-- Iterating the destructive `RevB.sliceIntoChunks` to exhaustion, exactly
as the `RevB` import loops do: splice a chunk, stop when the spliced chunk
is empty (which happens precisely when the source array is exhausted, or
when the chunk size is zero — a case no call site exercises), otherwise
record it and splice the next chunk from what the source array retains. -/
def drainChunks (C : Nat) : List α → List (List α)
  | [] => []
  | x :: xs =>
    if _h : C = 0 then []
    else (x :: xs).take C :: drainChunks C ((x :: xs).drop C)
termination_by l => l.length
decreasing_by simp only [List.length_drop, List.length_cons]; omega

/-- Tenant handle (`InstanceDto`): the importers consume only `instanceName`. -/
structure InstanceDto where
  instanceName : String
deriving Repr, DecidableEq

/-- Per-tenant staging store held by the `ChatwootImport` singleton
(this part is identical in all three revisions): the three `Map`s keyed by
instance name, modelled as partial functions from key to stored array. -/
structure Store where
  repositoryMessagesCache : String → Option (List String)
  historyMessages : String → Option (List MessageRaw)
  historyContacts : String → Option (List ContactRaw)

/-- `getRepositoryMessagesCache`: `has ? get : null`. -/
def Store.getRepositoryMessagesCache (s : Store) (inst : InstanceDto) : Option (List String) :=
  s.repositoryMessagesCache inst.instanceName

/-- `setRepositoryMessagesCache`. -/
def Store.setRepositoryMessagesCache (s : Store) (inst : InstanceDto)
    (cache : List String) : Store :=
  { s with repositoryMessagesCache :=
      fun k => if k = inst.instanceName then some cache else s.repositoryMessagesCache k }

/-- `deleteRepositoryMessagesCache`. -/
def Store.deleteRepositoryMessagesCache (s : Store) (inst : InstanceDto) : Store :=
  { s with repositoryMessagesCache :=
      fun k => if k = inst.instanceName then none else s.repositoryMessagesCache k }

/-- `addHistoryMessages`: `(has ? get : []).concat(messagesRaw)` stored back
under the same key. -/
def Store.addHistoryMessages (s : Store) (inst : InstanceDto)
    (messagesRaw : List MessageRaw) : Store :=
  { s with historyMessages :=
      fun k => if k = inst.instanceName then
        some (((s.historyMessages inst.instanceName).getD []) ++ messagesRaw)
      else s.historyMessages k }

/-- `addHistoryContacts`: `(has ? get : []).concat(contactsRaw)` stored back
under the same key. -/
def Store.addHistoryContacts (s : Store) (inst : InstanceDto)
    (contactsRaw : List ContactRaw) : Store :=
  { s with historyContacts :=
      fun k => if k = inst.instanceName then
        some (((s.historyContacts inst.instanceName).getD []) ++ contactsRaw)
      else s.historyContacts k }

/-- Aliased in-place mutation of the array stored under the tenant's key
(`sort`/`splice` act on the very array the `Map` holds). -/
def Store.setHistoryMessages (s : Store) (inst : InstanceDto)
    (messages : List MessageRaw) : Store :=
  { s with historyMessages :=
      fun k => if k = inst.instanceName then some messages else s.historyMessages k }

/-- `deleteHistoryMessages`. -/
def Store.deleteHistoryMessages (s : Store) (inst : InstanceDto) : Store :=
  { s with historyMessages :=
      fun k => if k = inst.instanceName then none else s.historyMessages k }

/-- `deleteHistoryContacts`. -/
def Store.deleteHistoryContacts (s : Store) (inst : InstanceDto) : Store :=
  { s with historyContacts :=
      fun k => if k = inst.instanceName then none else s.historyContacts k }

/-- `clearAll`: delete the cache, the staged messages and the staged
contacts of the tenant. -/
def Store.clearAll (s : Store) (inst : InstanceDto) : Store :=
  ((s.deleteRepositoryMessagesCache inst).deleteHistoryMessages inst).deleteHistoryContacts inst

/-- `getHistoryMessagesLenght` (source spelling kept):
`historyMessages.get(instanceName)?.length ?? 0`. -/
def Store.getHistoryMessagesLenght (s : Store) (inst : InstanceDto) : Nat :=
  ((s.historyMessages inst.instanceName).map List.length).getD 0

/-- Outcome of one importer invocation under the fuel-instrumented loop
semantics: `ret v` models a JavaScript return (`none` = `undefined`),
`spin` means the fuel budget ran out inside the `while` loop, i.e. within
that budget the loop never drained. -/
inductive Outcome where
  | ret (value : Option Nat)
  | spin
deriving Repr, DecidableEq

/-- Result of a database query, narrowed to the fields the contact importer
reads: the affected-row count and the `RETURNING id` values. -/
structure RevA.QRes where
  rowCount : Nat
  ids : List Nat
deriving Repr, DecidableEq

/-- Row of the `tags` table as touched by `insertTag`. -/
structure RevA.TagRow where
  id : Nat
  name : String
  taggings_count : Nat
deriving Repr, DecidableEq

/-- Abstract write events recorded against the tables the contact importer
touches besides `tags` (whose contents the claims inspect, so it is kept as
a concrete table instead). -/
inductive RevA.DbWrite where
  | labelRow
  | contactsUpsert (iteration : Nat) (rowCount : Nat)
  | taggingRow (contactId : Nat)
deriving Repr, DecidableEq

/-- Oracle for the fallible database collaborator of
`RevA.importHistoryContacts`: per query site, whether it throws, what it
finds, and the fresh id the `RETURNING` clause would hand back. -/
structure RevA.ContactsOracle where
  labelCheckThrows : Bool
  labelCheckFound : Bool
  labelInsertThrows : Bool
  tagCheckThrows : Bool
  tagWriteThrows : Bool
  freshTagId : Nat
  chunkInsert : Nat → Option RevA.QRes
  taggingThrows : Nat → Bool

/-- `insertLabel` (`chatwoot-import-helper.ts` lines 81-104): check-then-insert
with every error caught and logged inside the helper.  Only the write trace
matters to the claims, so the label table itself stays abstract. -/
def RevA.insertLabel (o : RevA.ContactsOracle) : List RevA.DbWrite :=
  if o.labelCheckThrows then []
  else if o.labelCheckFound then []
  else if o.labelInsertThrows then []
  else [RevA.DbWrite.labelRow]

/-- `insertTag` (`chatwoot-import-helper.ts` lines 106-137): look the tag up
by name; when absent insert it with `taggings_count = totalContacts`
returning the fresh id; when present run
`UPDATE tags SET taggings_count = taggings_count + totalContacts ... RETURNING id`.
Any thrown query is caught inside the helper, which then returns
`undefined` (`none`) and leaves the table as it was. -/
def RevA.insertTag (thCheck thWrite : Bool) (freshId : Nat) (tags : List RevA.TagRow)
    (instanceName : String) (totalContacts : Nat) : Option Nat × List RevA.TagRow :=
  if thCheck then (none, tags)
  else
    let found := tags.filter fun t => t.name = instanceName
    if found.length = 0 then
      if thWrite then (none, tags)
      else (some freshId, tags ++ [⟨freshId, instanceName, totalContacts⟩])
    else
      if thWrite then (none, tags)
      else ((found.head?).map RevA.TagRow.id,
        tags.map fun t =>
          if t.name = instanceName then
            { t with taggings_count := t.taggings_count + totalContacts }
          else t)

/-- Loop body of `insertTaggings` (lines 139-156): one insert per contact id;
a throw is caught outside the `for`, so it aborts the rest of the loop. -/
def RevA.insertTaggingsLoop (o : RevA.ContactsOracle) : Nat → List Nat → List RevA.DbWrite
  | _, [] => []
  | k, cid :: rest =>
    if o.taggingThrows k then []
    else RevA.DbWrite.taggingRow cid :: RevA.insertTaggingsLoop o (k + 1) rest

/-- `insertTaggings` (lines 139-156). -/
def RevA.insertTaggings (o : RevA.ContactsOracle) (contactIds : List Nat) : List RevA.DbWrite :=
  RevA.insertTaggingsLoop o 0 contactIds

/-- Result of the `while (contactsChunk.length > 0)` loop of
`RevA.importHistoryContacts` under a fuel budget. -/
inductive RevA.LoopRes where
  | threw (writes : List RevA.DbWrite)
  | fuelOut (writes : List RevA.DbWrite)
  | finished (total : Nat) (ids : List Nat) (writes : List RevA.DbWrite)
deriving Repr, DecidableEq

/-- The `RevA` contact-import `while` loop (lines 180-218): each iteration
recomputes `contactsChunk = sliceIntoChunks(contacts, 3000)` from the
never-mutated `contacts` array, issues one multi-row upsert, accumulates
`rowCount` and the returned ids, and repeats while the chunk is non-empty. -/
def RevA.contactsLoop (o : RevA.ContactsOracle) (contacts : List ContactRaw) :
    Nat → Nat → Nat → List Nat → RevA.LoopRes
  | fuel, k, total, ids =>
    let chunk := RevA.sliceIntoChunks contacts 3000
    if chunk.isEmpty then .finished total ids []
    else
      match fuel with
      | 0 => .fuelOut []
      | fuel + 1 =>
        match o.chunkInsert k with
        | none => .threw []
        | some res =>
          match RevA.contactsLoop o contacts fuel (k + 1) (total + res.rowCount)
              (ids ++ res.ids) with
          | .threw ws => .threw (RevA.DbWrite.contactsUpsert k res.rowCount :: ws)
          | .fuelOut ws => .fuelOut (RevA.DbWrite.contactsUpsert k res.rowCount :: ws)
          | .finished t is ws =>
              .finished t is (RevA.DbWrite.contactsUpsert k res.rowCount :: ws)

/-- `RevA.importHistoryContacts` (`chatwoot-import-helper.ts` lines 158-229):
guard on staged messages, early return on empty staged contacts, label and
tag upkeep, the chunked upsert loop, taggings, and on normal loop exit the
deletion of the staged contacts.  Every thrown error reaches the outer
`catch` which logs and returns `undefined`. -/
def RevA.importHistoryContacts (o : RevA.ContactsOracle) (tags : List RevA.TagRow)
    (fuel : Nat) (s : Store) (inst : InstanceDto) :
    Outcome × Store × List RevA.TagRow × List RevA.DbWrite :=
  if 0 < s.getHistoryMessagesLenght inst then (.ret none, s, tags, [])
  else
    let contacts := (s.historyContacts inst.instanceName).getD []
    if contacts.isEmpty then (.ret (some 0), s, tags, [])
    else
      let wsLabel := RevA.insertLabel o
      let tagRes := RevA.insertTag o.tagCheckThrows o.tagWriteThrows o.freshTagId tags
        inst.instanceName contacts.length
      match RevA.contactsLoop o contacts fuel 0 0 [] with
      | .threw ws => (.ret none, s, tagRes.2, wsLabel ++ ws)
      | .fuelOut ws => (.spin, s, tagRes.2, wsLabel ++ ws)
      | .finished total ids ws =>
          let wsTagging := RevA.insertTaggings o ids
          (.ret (some total), s.deleteHistoryContacts inst, tagRes.2,
            wsLabel ++ ws ++ wsTagging)

/-- Resolved foreign-key pair for one phone number (`FksChatwoot`); the
source carries the ids as strings, modelled as `Nat`. -/
structure RevB.FksChatwoot where
  contact_id : Nat
  conversation_id : Nat
deriving Repr, DecidableEq

/-- One `VALUES` row of the bulk `INSERT INTO messages` of
`RevB.importHistoryMessages`: renderable content, the resolved conversation
and contact ids, and `created_at = to_timestamp(messageTimestamp)`,
modelled as the timestamp itself (`updated_at` is bound to the same value
and the remaining columns are constants). -/
structure RevB.MessageRow where
  content : String
  conversation_id : Nat
  contact_id : Nat
  created_at : Nat
deriving Repr, DecidableEq

/-- Comparator of the `messagesOrdered.sort` call
(`chatwoot-import-helper.ts` lines 550-555):
`parseInt(a.key.remoteJid) - parseInt(b.key.remoteJid) || (a.messageTimestamp - b.messageTimestamp)`.
`a` sorts no later than `b` exactly when its numeric prefix is smaller, or
the prefixes tie and its timestamp is no larger. -/
def RevB.msgLe (a b : MessageRaw) : Bool :=
  decide (phoneOf a < phoneOf b ∨
    (phoneOf a = phoneOf b ∧ a.messageTimestamp ≤ b.messageTimestamp))

/-- The in-place `sort` on the staged message array, modelled by a stable
sort under the source comparator. -/
def RevB.sortMessages (l : List MessageRaw) : List MessageRaw :=
  l.mergeSort RevB.msgLe

/-- Keys of a JavaScript `Map` built by successive `set`s: order of first
occurrence, each key once. -/
def RevB.keysOf : List Nat → List Nat
  | [] => []
  | p :: ps => p :: (RevB.keysOf ps).filter (· ≠ p)

/-- `createMessagesMapByPhoneNumber` (lines 638-647): group the messages by
derived phone number; each key maps to its messages in encounter order,
keys in first-occurrence order. -/
def RevB.createMessagesMapByPhoneNumber (messages : List MessageRaw) :
    List (Nat × List MessageRaw) :=
  (RevB.keysOf (messages.map phoneOf)).map
    fun p => (p, messages.filter fun m => decide (phoneOf m = p))

/-- The per-message step of the row-building `forEach` (lines 591-616):
skip the message when it has no renderable content (`!message.message` /
falsy `getContentMessage`) or when the group's `FksChatwoot` is missing an
id; otherwise emit the `VALUES` row with `created_at` the message
timestamp. -/
def RevB.rowOf (fk : Option RevB.FksChatwoot) (m : MessageRaw) : Option RevB.MessageRow :=
  match m.content, fk with
  | some c, some f =>
      if c = "" then none
      else some ⟨c, f.conversation_id, f.contact_id, m.messageTimestamp⟩
  | _, _ => none

/-- Rows of one chunk's bulk insert, in the order the nested `forEach`
pushes them: group by group (key order), messages in group order. -/
def RevB.chunkRows (fks : Nat → Option RevB.FksChatwoot) (chunk : List MessageRaw) :
    List RevB.MessageRow :=
  (RevB.createMessagesMapByPhoneNumber chunk).flatMap
    fun g => g.2.filterMap (RevB.rowOf (fks g.1))

/-- Execution of the bulk
`INSERT INTO messages ... ON CONFLICT (conversation_id, created_at) DO UPDATE SET content = EXCLUDED.content`
for a single `VALUES` row against the modelled `messages` table. -/
def RevB.upsertRow (table : List RevB.MessageRow) (r : RevB.MessageRow) :
    List RevB.MessageRow :=
  if table.any fun t =>
      decide (t.conversation_id = r.conversation_id ∧ t.created_at = r.created_at) then
    table.map fun t =>
      if t.conversation_id = r.conversation_id ∧ t.created_at = r.created_at then
        { t with content := r.content }
      else t
  else table ++ [r]

/-- The whole multi-row statement, row by row in `VALUES` order. -/
def RevB.upsertRows (table : List RevB.MessageRow) (rows : List RevB.MessageRow) :
    List RevB.MessageRow :=
  rows.foldl RevB.upsertRow table

/-- Per-iteration outcome of the database work of one chunk (the
`selectOrCreateFksFromChatwoot` queries plus the bulk insert): either some
query threw, or the resolver produced a per-phone-number `FksChatwoot`
mapping and the insert succeeded. -/
inductive RevB.ChunkStep where
  | throw
  | ok (fks : Nat → Option RevB.FksChatwoot)

/-- Oracle for the database collaborator of `RevB.importHistoryMessages`:
the acting user looked up by `getChatwootUser` (`none` both when no row
matches and when that query throws — the importer aborts identically), and
the outcome of each loop iteration's queries. -/
structure RevB.MsgDb where
  user : Option Nat
  step : Nat → RevB.ChunkStep

/-- The `while (messagesChunk.length > 0)` loop of
`RevB.importHistoryMessages` (lines 570-628).  `chunk` is the spliced-out
chunk, `rem` what the staged array (still aliased by the tenant's `Map`
entry, hence mirrored in `s`) retains.  One iteration resolves the chunk's
foreign keys, executes the bulk upsert, adds the statement's row count, and
splices the next chunk; a thrown query is caught by the outer `catch`,
which returns `undefined`.  On normal exit `deleteHistoryMessages` runs
and the accumulated count is returned.  (The source guards the body with
`if (messagesByPhoneNumber.size > 0)`, which a non-empty chunk always
satisfies.) -/
def RevB.messagesLoop (db : RevB.MsgDb) (inst : InstanceDto) (k total : Nat)
    (table : List RevB.MessageRow) (s : Store) (chunk rem : List MessageRaw) :
    Option Nat × Store × List RevB.MessageRow :=
  if chunk.isEmpty then (some total, s.deleteHistoryMessages inst, table)
  else
    match db.step k with
    | .throw => (none, s, table)
    | .ok fks =>
        let rows := RevB.chunkRows fks chunk
        RevB.messagesLoop db inst (k + 1) (total + rows.length)
          (RevB.upsertRows table rows)
          (s.setHistoryMessages inst (rem.drop 4000)) (rem.take 4000) (rem.drop 4000)
termination_by chunk.length + rem.length
decreasing_by
  have hchunk : chunk ≠ [] := by
    intro hnil
    simp [hnil] at *
  have : 0 < chunk.length := List.length_pos.mpr hchunk
  simp only [List.length_take, List.length_drop]
  omega

/-- `RevB.importHistoryMessages` (`chatwoot-import-helper.ts` lines
528-636): abort when no acting user resolves, return `0` on empty staged
messages, otherwise sort the staged array in place, splice the first chunk
and run the chunk loop.  The sort and the splice mutate the very array the
tenant's `Map` entry aliases, so the store is updated before the first
query runs.  (The first/last-timestamp map of lines 557-565 feeds only the
foreign-key resolver, which the `RevB.MsgDb.step` oracle abstracts.) -/
def RevB.importHistoryMessages (db : RevB.MsgDb) (table : List RevB.MessageRow)
    (s : Store) (inst : InstanceDto) : Option Nat × Store × List RevB.MessageRow :=
  match db.user with
  | none => (none, s, table)
  | some _ =>
    match s.historyMessages inst.instanceName with
    | none => (some 0, s, table)
    | some msgs =>
      if msgs.isEmpty then (some 0, s, table)
      else
        let sorted := RevB.sortMessages msgs
        let spliced := RevB.sliceIntoChunks sorted 4000
        RevB.messagesLoop db inst 0 0 table (s.setHistoryMessages inst spliced.2)
          spliced.1 spliced.2

/-- Persisted contact row, narrowed to the columns the `RevC` resolver
touches. -/
structure RevC.ContactRow where
  id : Nat
  account_id : Nat
  phone_number : String
  name : String
  identifier : String
  created_at : Nat
deriving Repr, DecidableEq

/-- Persisted conversation row, narrowed to the columns the `RevC` resolver
touches. -/
structure RevC.ConversationRow where
  id : Nat
  account_id : Nat
  inbox_id : Nat
  contact_id : Nat
  created_at : Nat
deriving Repr, DecidableEq

/-- The slice of the helpdesk database the `RevC` resolver reads and
writes. -/
structure RevC.ChatDb where
  contacts : List RevC.ContactRow
  conversations : List RevC.ConversationRow
deriving Repr, DecidableEq

/-- The single atomic common-table-expression statement
`selectOrCreateContactConversation` of `RevC.selectOrCreateFksFromChatwoot`
(`src/unnamed/part_000` lines 307-326), executed once per phone number:

- `ins1` inserts the contact `ON CONFLICT (identifier, account_id) DO NOTHING`,
  so with a pre-existing matching contact it inserts nothing and the
  `COALESCE` falls back to selecting that contact's id;
- `ins2` inserts a conversation for the resolved contact id — with no
  conflict clause, so it inserts a fresh conversation row on every
  execution;
- the final `SELECT` returns the resolved `(contact_id, conversation_id)`.

`freshContactId`/`freshConversationId` stand for the serial ids the
`RETURNING` clauses would mint. -/
def RevC.selectOrCreateContactConversation (db : RevC.ChatDb)
    (freshContactId freshConversationId : Nat) (accountId : Nat)
    (phoneNumber name identifier : String) (ts inboxId : Nat) :
    (Option Nat × Option Nat) × RevC.ChatDb :=
  match db.contacts.find? fun c =>
      decide (c.identifier = identifier ∧ c.account_id = accountId) with
  | some c =>
      let conv : RevC.ConversationRow := ⟨freshConversationId, accountId, inboxId, c.id, ts⟩
      ((some c.id, some conv.id),
        { db with conversations := db.conversations ++ [conv] })
  | none =>
      let contact : RevC.ContactRow :=
        ⟨freshContactId, accountId, phoneNumber, name, identifier, ts⟩
      let conv : RevC.ConversationRow :=
        ⟨freshConversationId, accountId, inboxId, freshContactId, ts⟩
      ((some freshContactId, some conv.id),
        { contacts := db.contacts ++ [contact],
          conversations := db.conversations ++ [conv] })

/-- Outcome of a fuel-bounded `RevC` import `while` loop. -/
inductive RevC.LoopRes where
  | threw
  | fuelOut
  | finished (total : Nat)
deriving Repr, DecidableEq

/-- The `while (contactsChunk.length > 0)` loop of
`RevC.importHistoryContacts` (`src/unnamed/part_000` lines 159-187): each
iteration runs one multi-row upsert (oracle `chunkInsert`, `none` = the
query threw) and recomputes
`contactsChunk = sliceIntoChunks(contacts, 3000)` from the never-mutated
`contacts` array. -/
def RevC.contactsLoop (chunkInsert : Nat → Option Nat) (contacts : List ContactRaw) :
    Nat → Nat → Nat → RevC.LoopRes
  | fuel, k, total =>
    let chunk := RevC.sliceIntoChunks contacts 3000
    if chunk.isEmpty then .finished total
    else
      match fuel with
      | 0 => .fuelOut
      | fuel + 1 =>
        match chunkInsert k with
        | none => .threw
        | some rc => RevC.contactsLoop chunkInsert contacts fuel (k + 1) (total + rc)

/-- The `while (messagesChunk.length > 0)` loop of
`RevC.importHistoryMessages` (`src/unnamed/part_000` lines 238-274): each
iteration groups the chunk, resolves foreign keys and runs the bulk insert
(all absorbed into the oracle `chunkResult`, `none` = some query threw) and
then recomputes `messagesChunk = sliceIntoChunks(messagesOrdered, 4000)`
from the never-drained `messagesOrdered` array. -/
def RevC.messagesChunkLoop (chunkResult : Nat → Option Nat)
    (messagesOrdered : List MessageRaw) : Nat → Nat → Nat → RevC.LoopRes
  | fuel, k, total =>
    let chunk := RevC.sliceIntoChunks messagesOrdered 4000
    if chunk.isEmpty then .finished total
    else
      match fuel with
      | 0 => .fuelOut
      | fuel + 1 =>
        match chunkResult k with
        | none => .threw
        | some rc => RevC.messagesChunkLoop chunkResult messagesOrdered fuel (k + 1) (total + rc)

/-- `RevC.insertTag` (`src/unnamed/part_000` lines 106-119): one
unconditional `INSERT INTO tags (name, taggings_count) VALUES ($1, $2)
RETURNING id` — this revision has no existence check and no
counter-increment path.  `thWrite` says whether the insert throws (for
instance on a unique-name violation when the tag already exists); the
error is caught inside the helper, which then returns `undefined` and
leaves the table unchanged.  A successful insert appends a fresh row whose
`taggings_count` is `totalContacts`, whatever rows already carry the same
name. -/
def RevC.insertTag (thWrite : Bool) (freshId : Nat) (tags : List RevA.TagRow)
    (instanceName : String) (totalContacts : Nat) : Option Nat × List RevA.TagRow :=
  if thWrite then (none, tags)
  else (some freshId, tags ++ [⟨freshId, instanceName, totalContacts⟩])

/-- Concrete staged message used by witness statements. -/
def sampleMsg : MessageRaw := ⟨100, "d", 5, some "hi"⟩

/-- Concrete staged contact used by witness statements. -/
def sampleContact : ContactRaw := ⟨"100@d", "Alice"⟩

/-- Concrete tenant used by witness statements. -/
def sampleInst : InstanceDto := ⟨"tenant1"⟩

/-- Concrete store holding one staged message and one staged contact for
`sampleInst`, used by witness statements. -/
def sampleStore : Store where
  repositoryMessagesCache := fun _ => none
  historyMessages := fun k => if k = "tenant1" then some [sampleMsg] else none
  historyContacts := fun k => if k = "tenant1" then some [sampleContact] else none

/-- Concrete never-throwing contact-import oracle used by witness
statements. -/
def sampleOracle : RevA.ContactsOracle where
  labelCheckThrows := false
  labelCheckFound := false
  labelInsertThrows := false
  tagCheckThrows := false
  tagWriteThrows := false
  freshTagId := 7
  chunkInsert := fun _ => some ⟨1, [21]⟩
  taggingThrows := fun _ => false

/-- Concrete message-import oracle whose every chunk's queries throw, used
by counterexample and witness statements. -/
def sampleThrowDb : RevB.MsgDb where
  user := some 3
  step := fun _ => RevB.ChunkStep.throw

/-- Concrete never-throwing message-import oracle resolving every phone
number to fixed foreign keys, used by witness statements. -/
def sampleOkDb : RevB.MsgDb where
  user := some 3
  step := fun _ => RevB.ChunkStep.ok fun _ => some ⟨11, 12⟩

/-- Concrete message-import oracle with no acting system user, used by
witness statements. -/
def sampleNoUserDb : RevB.MsgDb where
  user := none
  step := fun _ => RevB.ChunkStep.throw

theorem drainChunks_nil (C : Nat) : drainChunks C ([] : List α) = [] := by
  simp [drainChunks]

theorem drainChunks_cons (C : Nat) (l : List α) (hC : 0 < C) (hl : l ≠ []) :
    drainChunks C l = l.take C :: drainChunks C (l.drop C) := by
  match l with
  | [] => exact absurd rfl hl
  | x :: xs => rw [drainChunks]; simp only [dif_neg (Nat.pos_iff_ne_zero.mp hC)]

theorem drainChunks_flatten (C : Nat) (hC : 0 < C) (l : List α) :
    (drainChunks C l).flatten = l := by
  induction l using drainChunks.induct C with
  | case1 => simp [drainChunks]
  | case2 x xs h => omega
  | case3 x xs h ih =>
    rw [drainChunks]
    simp only [dif_neg h, List.flatten_cons, ih, List.take_append_drop]

theorem drainChunks_le (C : Nat) (l : List α) :
    ∀ c ∈ drainChunks C l, c.length ≤ C := by
  induction l using drainChunks.induct C with
  | case1 => simp [drainChunks]
  | case2 x xs h => simp [drainChunks, h]
  | case3 x xs h ih =>
    rw [drainChunks]
    simp only [dif_neg h]
    intro c hc
    rcases List.mem_cons.mp hc with rfl | hc
    · exact List.length_take_le C _
    · exact ih c hc

theorem ceil_step (C n : Nat) (hC : 0 < C) (hn : 0 < n) :
    (n + C - 1) / C = (n - C + C - 1) / C + 1 := by
  have h0 : n + C - 1 = (n - 1) + C := by omega
  rw [h0, Nat.add_div_right _ hC]
  rcases Nat.lt_or_ge n C with hlt | hge
  · have h1 : n - C + C - 1 = C - 1 := by omega
    rw [h1, Nat.div_eq_of_lt (by omega), Nat.div_eq_of_lt (by omega)]
  · have h1 : n - C + C - 1 = n - 1 := by omega
    rw [h1]

theorem drainChunks_length (C : Nat) (hC : 0 < C) (l : List α) :
    (drainChunks C l).length = (l.length + C - 1) / C := by
  induction l using drainChunks.induct C with
  | case1 =>
    rw [drainChunks_nil]
    simp only [List.length_nil, Nat.zero_add]
    rw [Nat.div_eq_of_lt (by omega)]
  | case2 x xs h => omega
  | case3 x xs h ih =>
    have hstep := ceil_step C (xs.length + 1) hC (by omega)
    rw [drainChunks]
    simp only [dif_neg h, List.length_cons, ih, List.length_drop]
    exact hstep.symm

theorem RevA.sliceLoop_eq_drainChunks (arr : List α) (C : Nat) (hC : 0 < C) :
    ∀ i, RevA.sliceLoop arr C i = drainChunks C (arr.drop i) := by
  intro i
  induction i using RevA.sliceLoop.induct arr C with
  | case1 i h ih =>
    rw [RevA.sliceLoop, dif_pos h]
    have hne : arr.drop i ≠ [] := by
      intro hnil
      have := List.drop_eq_nil_iff.mp hnil
      omega
    rw [drainChunks_cons C _ hC hne, ih, List.drop_drop, Nat.add_comm]
  | case2 i h =>
    rw [RevA.sliceLoop, dif_neg h]
    push_neg at h
    have : arr.drop i = [] := by
      rw [List.drop_eq_nil_iff]
      exact h hC
    rw [this, drainChunks_nil]

theorem RevA.sliceIntoChunks_eq_self (arr : List α) (C : Nat) (hC : 0 < C) :
    RevA.sliceIntoChunks arr C = arr := by
  rw [RevA.sliceIntoChunks, RevA.sliceLoop_eq_drainChunks arr C hC 0, List.drop_zero,
    drainChunks_flatten C hC]

/-- C1 counterexample: with input `[0, 1]` and chunk size `1` the claim
demands two chunks `[[0], [1]]` jointly containing both elements; instead a
single `sliceIntoChunks` call returns `[0]` — only the first chunk's worth,
with the element `1` absent — in the `RevC` (slice) and `RevB` (splice)
revisions, and returns the undivided whole input `[0, 1]` in the `RevA`
(flat) revision.  No revision yields `⌈N / C⌉` chunks covering the input. -/
theorem c1_sliceIntoChunks_not_a_chunking :
    RevC.sliceIntoChunks [0, 1] 1 = [0] ∧
    (1 : Nat) ∉ RevC.sliceIntoChunks [0, 1] 1 ∧
    (RevB.sliceIntoChunks [0, 1] 1).1 = [0] ∧
    RevA.sliceIntoChunks [0, 1] 1 = [0, 1] :=
  ⟨rfl, by decide, rfl, RevA.sliceIntoChunks_eq_self [0, 1] 1 (by decide)⟩

/-- C1 (amended): a single `sliceIntoChunks` call returns only the first
chunk's worth of elements (destructively removing them in `RevB`,
non-destructively in `RevC`), while `RevA` returns the whole input
flattened back together; the claimed decomposition is achieved only by
iterating the destructive `RevB` splice to exhaustion, as its import loops
do: that drain yields exactly `⌈N / C⌉` chunks, each of size at most `C`,
whose concatenation is exactly the input sequence — every element exactly
once, in the original order. -/
theorem c1_drain_covers (C : Nat) (hC : 0 < C) (l : List α) :
    (drainChunks C l).length = (l.length + C - 1) / C ∧
    (∀ c ∈ drainChunks C l, c.length ≤ C) ∧
    (drainChunks C l).flatten = l ∧
    RevA.sliceIntoChunks l C = l :=
  ⟨drainChunks_length C hC l, drainChunks_le C l, drainChunks_flatten C hC l,
    RevA.sliceIntoChunks_eq_self l C hC⟩

/-- Witness for `c1_drain_covers` at chunk size `2` over a 3-element list. -/
theorem c1_drain_covers_witness :
    (0 : Nat) < 2 ∧
    ((drainChunks 2 [10, 20, 30]).length = ([10, 20, 30].length + 2 - 1) / 2 ∧
      (∀ c ∈ drainChunks 2 [10, 20, 30], c.length ≤ 2) ∧
      (drainChunks 2 [10, 20, 30]).flatten = [10, 20, 30] ∧
      RevA.sliceIntoChunks [10, 20, 30] 2 = [10, 20, 30]) :=
  ⟨by decide, c1_drain_covers 2 (by decide) [10, 20, 30]⟩

theorem RevA.contactsLoop_no_finish (o : RevA.ContactsOracle) (contacts : List ContactRaw)
    (hc : contacts ≠ []) :
    ∀ fuel k total ids t is ws,
      RevA.contactsLoop o contacts fuel k total ids ≠ RevA.LoopRes.finished t is ws := by
  have hchunk : (RevA.sliceIntoChunks contacts 3000).isEmpty = false := by
    rw [RevA.sliceIntoChunks_eq_self contacts 3000 (by omega)]
    simpa using hc
  intro fuel
  induction fuel with
  | zero =>
    intro k total ids t is ws h
    rw [RevA.contactsLoop] at h
    simp only [hchunk, Bool.false_eq_true, if_false] at h
    exact RevA.LoopRes.noConfusion h
  | succ fuel ih =>
    intro k total ids t is ws h
    rw [RevA.contactsLoop] at h
    simp only [hchunk, Bool.false_eq_true, if_false] at h
    rcases hq : o.chunkInsert k with _ | res
    · rw [hq] at h
      simp at h
    · rw [hq] at h
      simp only at h
      rcases hrec : RevA.contactsLoop o contacts fuel (k + 1) (total + res.rowCount)
          (ids ++ res.ids) with ws' | ws' | ⟨t', is', ws'⟩
      · rw [hrec] at h
        simp at h
      · rw [hrec] at h
        simp at h
      · exact ih (k + 1) (total + res.rowCount) (ids ++ res.ids) t' is' ws' hrec

theorem RevC.contactsLoop_never_finishes (ci : Nat → Option Nat) (contacts : List ContactRaw)
    (hc : contacts ≠ []) :
    ∀ fuel k total t, RevC.contactsLoop ci contacts fuel k total ≠ RevC.LoopRes.finished t := by
  have hchunk : (RevC.sliceIntoChunks contacts 3000).isEmpty = false := by
    simp [RevC.sliceIntoChunks, List.take_eq_nil_iff]
    exact hc
  intro fuel
  induction fuel with
  | zero =>
    intro k total t h
    rw [RevC.contactsLoop] at h
    simp only [hchunk, Bool.false_eq_true, if_false] at h
    exact RevC.LoopRes.noConfusion h
  | succ fuel ih =>
    intro k total t h
    rw [RevC.contactsLoop] at h
    simp only [hchunk, Bool.false_eq_true, if_false] at h
    rcases hq : ci k with _ | rc
    · rw [hq] at h
      simp at h
    · rw [hq] at h
      simp only at h
      exact ih (k + 1) (total + rc) t h

theorem RevC.messagesChunkLoop_no_finish (cr : Nat → Option Nat) (msgs : List MessageRaw)
    (hm : msgs ≠ []) :
    ∀ fuel k total t, RevC.messagesChunkLoop cr msgs fuel k total ≠ RevC.LoopRes.finished t := by
  have hchunk : (RevC.sliceIntoChunks msgs 4000).isEmpty = false := by
    simp [RevC.sliceIntoChunks, List.take_eq_nil_iff]
    exact hm
  intro fuel
  induction fuel with
  | zero =>
    intro k total t h
    rw [RevC.messagesChunkLoop] at h
    simp only [hchunk, Bool.false_eq_true, if_false] at h
    exact RevC.LoopRes.noConfusion h
  | succ fuel ih =>
    intro k total t h
    rw [RevC.messagesChunkLoop] at h
    simp only [hchunk, Bool.false_eq_true, if_false] at h
    rcases hq : cr k with _ | rc
    · rw [hq] at h
      simp at h
    · rw [hq] at h
      simp only at h
      exact ih (k + 1) (total + rc) t h

/-- C2: the chunk-processing `while` loops of the `RevA` and `RevC`
importers never drain.  Because `RevA.sliceIntoChunks` returns the whole
(never-mutated) staged array and `RevC.sliceIntoChunks` returns its first
3000/4000 elements without removing them, the recomputed chunk of a
non-empty staged sequence is non-empty at every iteration, so under any
fuel budget and any database oracle the loops can only throw or run out of
fuel — they never reach the normal-exit (`finished`) branch.  This is the
documented never-draining-chunk bug class occurring, not avoided.  (Only
the `RevB` loops, built on the destructive splice, drain — see
`c1_drain_covers`.) -/
theorem c2_import_loops_never_drain (o : RevA.ContactsOracle)
    (ci cr : Nat → Option Nat) (contacts : List ContactRaw) (msgs : List MessageRaw)
    (hc : contacts ≠ []) (hm : msgs ≠ []) :
    (∀ fuel k total ids t is ws,
      RevA.contactsLoop o contacts fuel k total ids ≠ RevA.LoopRes.finished t is ws) ∧
    (∀ fuel k total t,
      RevC.contactsLoop ci contacts fuel k total ≠ RevC.LoopRes.finished t) ∧
    (∀ fuel k total t,
      RevC.messagesChunkLoop cr msgs fuel k total ≠ RevC.LoopRes.finished t) :=
  ⟨RevA.contactsLoop_no_finish o contacts hc,
    RevC.contactsLoop_never_finishes ci contacts hc,
    RevC.messagesChunkLoop_no_finish cr msgs hm⟩

/-- Witness for `c2_import_loops_never_drain` at one staged contact and one
staged message, instantiating each non-termination clause at fuel 5. -/
theorem c2_import_loops_never_drain_witness :
    ([sampleContact] ≠ []) ∧ ([sampleMsg] ≠ []) ∧
    RevA.contactsLoop sampleOracle [sampleContact] 5 0 0 [] ≠
      RevA.LoopRes.finished 0 [] [] ∧
    RevC.contactsLoop (fun _ => some 1) [sampleContact] 5 0 0 ≠
      RevC.LoopRes.finished 0 ∧
    RevC.messagesChunkLoop (fun _ => some 1) [sampleMsg] 5 0 0 ≠
      RevC.LoopRes.finished 0 := by
  have h := c2_import_loops_never_drain sampleOracle (fun _ => some 1) (fun _ => some 1)
    [sampleContact] [sampleMsg] (by simp) (by simp)
  exact ⟨by simp, by simp, h.1 5 0 0 [] 0 [] [], h.2.1 5 0 0 0, h.2.2 5 0 0 0⟩

/-- C6: whenever the staged message count of the tenant is positive,
`RevA.importHistoryContacts` returns at once (`undefined`), leaves the
whole staging store — staged contacts included — untouched, leaves the
`tags` table untouched, and issues no database write at all. -/
theorem c6_message_guard_blocks_contact_import (o : RevA.ContactsOracle)
    (tags : List RevA.TagRow) (fuel : Nat) (s : Store) (inst : InstanceDto)
    (h : 0 < s.getHistoryMessagesLenght inst) :
    RevA.importHistoryContacts o tags fuel s inst = (Outcome.ret none, s, tags, []) := by
  rw [RevA.importHistoryContacts, if_pos h]

/-- Witness for `c6_message_guard_blocks_contact_import` on a store with one
staged message. -/
theorem c6_message_guard_blocks_contact_import_witness :
    0 < sampleStore.getHistoryMessagesLenght sampleInst ∧
    RevA.importHistoryContacts sampleOracle [] 5 sampleStore sampleInst =
      (Outcome.ret none, sampleStore, [], []) :=
  ⟨by decide,
    c6_message_guard_blocks_contact_import sampleOracle [] 5 sampleStore sampleInst (by decide)⟩

/-- C8: when no acting system user resolves for the account
(`getChatwootUser` finds no row — or its query throws, which the model
folds into the same `none`), `RevB.importHistoryMessages` aborts that whole
invocation: it returns `undefined` (no committed count), commits no message
row, and leaves the staging store untouched. -/
theorem c8_missing_user_aborts_message_import (db : RevB.MsgDb)
    (table : List RevB.MessageRow) (s : Store) (inst : InstanceDto)
    (h : db.user = none) :
    RevB.importHistoryMessages db table s inst = (none, s, table) := by
  rw [RevB.importHistoryMessages, h]

/-- Witness for `c8_missing_user_aborts_message_import` on a store with one
staged message and the user-less oracle. -/
theorem c8_missing_user_aborts_message_import_witness :
    sampleNoUserDb.user = none ∧
    RevB.importHistoryMessages sampleNoUserDb [] sampleStore sampleInst =
      (none, sampleStore, []) :=
  ⟨rfl, c8_missing_user_aborts_message_import sampleNoUserDb [] sampleStore sampleInst rfl⟩

/-- C9 counterexample: the `part_000` revision of `insertTag` never
increments an existing tag's counter.  With a tag named `tenant1` already
present at count 5 and a batch of 3 staged contacts, the claim demands the
counter become 8; instead the single unconditional insert either throws
(caught: `undefined` returned, table unchanged, counter still 5) or
appends a second `tenant1` row with count 3, again leaving the existing
tag's counter at 5. -/
theorem c9_part000_insertTag_never_increments :
    RevC.insertTag true 9 [⟨7, "tenant1", 5⟩] "tenant1" 3 =
      (none, [⟨7, "tenant1", 5⟩]) ∧
    RevC.insertTag false 9 [⟨7, "tenant1", 5⟩] "tenant1" 3 =
      (some 9, [⟨7, "tenant1", 5⟩, ⟨9, "tenant1", 3⟩]) := by
  decide

/-- C9 (amended): the two cited `insertTag` revisions genuinely diverge.
The `chatwoot-import-helper.ts` revision behaves as claimed (when its two
queries succeed): with no tag of that name it inserts one whose
`taggings_count` starts at the batch size and returns the fresh id; with
one present it increments that tag's `taggings_count` by the batch size
and returns the (first) matching tag's id.  The `part_000` revision
instead issues one unconditional insert with no existence check: it never
increments an existing counter — it either aborts (returning `undefined`
with the table unchanged) or appends a fresh row carrying the batch size
as its count.  (`importHistoryContacts` passes `contacts.length`, the
staged batch size, as `totalContacts` in both revisions.) -/
theorem c9_insertTag_per_revision (freshId : Nat) (tags : List RevA.TagRow)
    (nm : String) (total : Nat) :
    (tags.filter (fun t => t.name = nm) = [] →
      RevA.insertTag false false freshId tags nm total =
        (some freshId, tags ++ [⟨freshId, nm, total⟩])) ∧
    (∀ t0 rest, tags.filter (fun t => t.name = nm) = t0 :: rest →
      RevA.insertTag false false freshId tags nm total =
        (some t0.id, tags.map fun t =>
          if t.name = nm then { t with taggings_count := t.taggings_count + total }
          else t)) ∧
    RevC.insertTag true freshId tags nm total = (none, tags) ∧
    RevC.insertTag false freshId tags nm total =
      (some freshId, tags ++ [⟨freshId, nm, total⟩]) := by
  refine ⟨?_, ?_, ?_, ?_⟩
  · intro hfil
    simp [RevA.insertTag, hfil]
  · intro t0 rest hfil
    simp [RevA.insertTag, hfil]
  · simp [RevC.insertTag]
  · simp [RevC.insertTag]

/-- Witness for `c9_insertTag_per_revision`: the helper.ts revision creates
the tag with batch size 5, then a re-import of batch size 3 increments its
counter to 8 returning the same id; the `part_000` revision's outcomes at
a fresh name. -/
theorem c9_insertTag_per_revision_witness :
    RevA.insertTag false false 7 [] "tenant1" 5 = (some 7, [⟨7, "tenant1", 5⟩]) ∧
    RevA.insertTag false false 9 [⟨7, "tenant1", 5⟩] "tenant1" 3 =
      (some 7, [⟨7, "tenant1", 8⟩]) ∧
    RevC.insertTag true 7 [] "tenant1" 5 = (none, []) ∧
    RevC.insertTag false 7 [] "tenant1" 5 = (some 7, [⟨7, "tenant1", 5⟩]) := by
  refine ⟨?_, ?_, ?_, ?_⟩
  · have h := (c9_insertTag_per_revision 7 [] "tenant1" 5).1 (by simp)
    simpa using h
  · have h := (c9_insertTag_per_revision 9 [⟨7, "tenant1", 5⟩] "tenant1" 3).2.1
      ⟨7, "tenant1", 5⟩ [] (by simp)
    simpa using h
  · exact (c9_insertTag_per_revision 7 [] "tenant1" 5).2.2.1
  · exact (c9_insertTag_per_revision 7 [] "tenant1" 5).2.2.2

/-- C7: the `RevC` atomic get-or-create is not duplicate-free for
conversations.  Two resolver invocations for the same brand-new phone
number that both pass their decision point before either statement commits
(for `RevC` the statement IS the whole get-or-create, so simply executing
the atomic statement twice — the schedule two overlapping resolvers
produce) leave exactly one contact but TWO conversation rows for that
contact: `ins1` deduplicates contacts via `ON CONFLICT DO NOTHING`, but the
conversation insert `ins2` has no conflict guard and fires on every
execution.  The claimed "exactly one `ConversationRecord`" is false. -/
theorem c7_double_resolve_duplicates_conversation :
    ((RevC.selectOrCreateContactConversation
        (RevC.selectOrCreateContactConversation ⟨[], []⟩ 1 100 42 "+123" "" "123@d" 5 9).2
        2 101 42 "+123" "" "123@d" 5 9).2.contacts.filter
          fun c => c.identifier = "123@d").length = 1 ∧
    ((RevC.selectOrCreateContactConversation
        (RevC.selectOrCreateContactConversation ⟨[], []⟩ 1 100 42 "+123" "" "123@d" 5 9).2
        2 101 42 "+123" "" "123@d" 5 9).2.conversations.filter
          fun cv => cv.contact_id = 1).length = 2 := by
  decide


theorem RevB.messagesLoop_fail_suffix (db : RevB.MsgDb) (inst : InstanceDto)
    (k total : Nat) (table : List RevB.MessageRow) (s : Store)
    (chunk rem : List MessageRaw) :
    ∀ (sorted : List MessageRaw) (n0 : Nat),
      s.historyMessages inst.instanceName = some rem →
      rem = sorted.drop n0 →
      (RevB.messagesLoop db inst k total table s chunk rem).1 = none →
      ∃ n, (RevB.messagesLoop db inst k total table s chunk rem).2.1.historyMessages
          inst.instanceName = some (sorted.drop n) := by
  induction k, total, table, s, chunk, rem using RevB.messagesLoop.induct db inst with
  | case1 k total table s chunk rem hempty =>
    intro sorted n0 hentry hsuffix hfail
    rw [RevB.messagesLoop] at hfail
    simp [hempty] at hfail
  | case2 k total table s chunk rem hne hstep =>
    intro sorted n0 hentry hsuffix hfail
    rw [RevB.messagesLoop]
    simp only [hne, Bool.false_eq_true, if_false, hstep]
    exact ⟨n0, hsuffix ▸ hentry⟩
  | case3 k total table s chunk rem hne fks hstep rows ih =>
    intro sorted n0 hentry hsuffix hfail
    rw [RevB.messagesLoop]
    simp only [hne, Bool.false_eq_true, if_false, hstep]
    rw [RevB.messagesLoop] at hfail
    simp only [hne, Bool.false_eq_true, if_false, hstep] at hfail
    refine ih sorted (n0 + 4000) ?_ ?_ hfail
    · simp [Store.setHistoryMessages]
    · rw [hsuffix, List.drop_drop]

theorem RevB.messagesLoop_success_deletes (db : RevB.MsgDb) (inst : InstanceDto)
    (k total : Nat) (table : List RevB.MessageRow) (s : Store)
    (chunk rem : List MessageRaw) :
    ∀ t, (RevB.messagesLoop db inst k total table s chunk rem).1 = some t →
      (RevB.messagesLoop db inst k total table s chunk rem).2.1.historyMessages
        inst.instanceName = none := by
  induction k, total, table, s, chunk, rem using RevB.messagesLoop.induct db inst with
  | case1 k total table s chunk rem hempty =>
    intro t _
    rw [RevB.messagesLoop]
    simp [hempty, Store.deleteHistoryMessages]
  | case2 k total table s chunk rem hne hstep =>
    intro t hsucc
    rw [RevB.messagesLoop] at hsucc
    simp [hne, hstep] at hsucc
  | case3 k total table s chunk rem hne fks hstep rows ih =>
    intro t hsucc
    rw [RevB.messagesLoop] at hsucc ⊢
    simp only [hne, Bool.false_eq_true, if_false, hstep] at hsucc ⊢
    exact ih t hsucc

theorem RevB.sortMessages_length (msgs : List MessageRaw) :
    (RevB.sortMessages msgs).length = msgs.length := by
  rw [RevB.sortMessages]
  exact (List.mergeSort_perm msgs RevB.msgLe).length_eq

theorem RevB.importHistoryMessages_first_throw (db : RevB.MsgDb)
    (table : List RevB.MessageRow) (s : Store) (inst : InstanceDto)
    (msgs : List MessageRaw) (u : Nat) (hu : db.user = some u)
    (hentry : s.historyMessages inst.instanceName = some msgs)
    (hne : msgs.isEmpty = false) (hstep : db.step 0 = RevB.ChunkStep.throw) :
    RevB.importHistoryMessages db table s inst =
      (none, s.setHistoryMessages inst ((RevB.sortMessages msgs).drop 4000), table) := by
  have hmne : msgs ≠ [] := List.isEmpty_eq_false.mp hne
  have hsne : RevB.sortMessages msgs ≠ [] := by
    intro h0
    have hl := congrArg List.length h0
    rw [RevB.sortMessages_length] at hl
    exact hmne (List.length_eq_zero.mp (by simpa using hl))
  have hchunk : (List.take 4000 (RevB.sortMessages msgs)).isEmpty = false := by
    rw [List.isEmpty_eq_false, ne_eq, List.take_eq_nil_iff]
    push_neg
    exact ⟨by omega, hsne⟩
  rw [RevB.importHistoryMessages, hu, hentry]
  simp only [hne, Bool.false_eq_true, if_false]
  rw [RevB.messagesLoop]
  simp only [RevB.sliceIntoChunks, hchunk, Bool.false_eq_true, if_false, hstep]

/-- C3 counterexample: one staged message, an acting user present, and the
first chunk's insert throwing.  The `RevB` message import fails (returns
`undefined`, commits nothing), yet the staged messages of the tenant are
NOT left as they were: the destructive splice already drained the chunk, so
staging went from one message to empty and the failed batch cannot be
retried. -/
theorem c3_failed_import_drains_staging :
    (RevB.importHistoryMessages sampleThrowDb [] sampleStore sampleInst).1 = none ∧
    (RevB.importHistoryMessages sampleThrowDb [] sampleStore sampleInst).2.2 = [] ∧
    sampleStore.historyMessages "tenant1" = some [sampleMsg] ∧
    (RevB.importHistoryMessages sampleThrowDb [] sampleStore sampleInst).2.1.historyMessages
      "tenant1" = some [] := by
  have hrun := RevB.importHistoryMessages_first_throw sampleThrowDb [] sampleStore
    sampleInst [sampleMsg] 3 rfl rfl rfl rfl
  have hsorted : RevB.sortMessages [sampleMsg] = [sampleMsg] := by
    simp [RevB.sortMessages]
  rw [hsorted] at hrun
  rw [hrun]
  refine ⟨rfl, rfl, rfl, ?_⟩
  simp [Store.setHistoryMessages, sampleInst]

/-- C3 (amended): staged data for the tenant is destroyed only on success —
but a failed `RevB` message import does not leave staging "exactly as it
was before the call" either.  What holds instead: (a) a run that fails
after the user check leaves the tenant's staged messages equal to some
suffix of the SORTED staging (`drop n`): the splice has irreversibly
removed every already-submitted chunk (including the one that failed), and
the in-place sort has reordered what remains; (b) a successful run deletes
the tenant's staged-message entry; (c) a run that fails at the acting-user
precondition leaves the store untouched; (d) a failed (`undefined`-
returning) `RevA` contact import leaves the store untouched, since its
chunking is non-destructive. -/
theorem c3_staging_after_failure (db : RevB.MsgDb) (table : List RevB.MessageRow)
    (s : Store) (inst : InstanceDto) (msgs : List MessageRaw) :
    (s.historyMessages inst.instanceName = some msgs → db.user.isSome →
      (RevB.importHistoryMessages db table s inst).1 = none →
      ∃ n, (RevB.importHistoryMessages db table s inst).2.1.historyMessages
        inst.instanceName = some ((RevB.sortMessages msgs).drop n)) ∧
    (s.historyMessages inst.instanceName = some msgs → msgs.isEmpty = false →
      ∀ t, (RevB.importHistoryMessages db table s inst).1 = some t →
      (RevB.importHistoryMessages db table s inst).2.1.historyMessages
        inst.instanceName = none) ∧
    (db.user = none → (RevB.importHistoryMessages db table s inst).2.1 = s) ∧
    (∀ o tags fuel, (RevA.importHistoryContacts o tags fuel s inst).1 = Outcome.ret none →
      (RevA.importHistoryContacts o tags fuel s inst).2.1 = s) := by
  refine ⟨?_, ?_, ?_, ?_⟩
  · intro hentry huser hfail
    rcases Option.isSome_iff_exists.mp huser with ⟨u, hu⟩
    rcases heq : msgs.isEmpty with _ | _
    · rw [RevB.importHistoryMessages, hu, hentry] at hfail ⊢
      simp only [heq, Bool.false_eq_true, if_false] at hfail ⊢
      refine RevB.messagesLoop_fail_suffix db inst 0 0 table _ _ _
        (RevB.sortMessages msgs) 4000 ?_ rfl hfail
      simp [Store.setHistoryMessages, RevB.sliceIntoChunks]
    · rw [RevB.importHistoryMessages, hu, hentry] at hfail
      simp [heq] at hfail
  · intro hentry hne t hsucc
    rcases hu : db.user with _ | u
    · rw [RevB.importHistoryMessages, hu] at hsucc
      simp at hsucc
    · rw [RevB.importHistoryMessages, hu, hentry] at hsucc ⊢
      simp only [hne, Bool.false_eq_true, if_false] at hsucc ⊢
      exact RevB.messagesLoop_success_deletes db inst 0 0 table _ _ _ t hsucc
  · intro hu
    rw [RevB.importHistoryMessages, hu]
  · intro o tags fuel hfail
    rw [RevA.importHistoryContacts] at hfail ⊢
    by_cases hg : 0 < s.getHistoryMessagesLenght inst
    · simp only [if_pos hg]
    · simp only [if_neg hg] at hfail ⊢
      by_cases hce : ((s.historyContacts inst.instanceName).getD []).isEmpty
      · simp only [hce, if_true] at hfail
        exact absurd hfail (by simp)
      · simp only [hce, Bool.false_eq_true, if_false] at hfail ⊢
        rcases hloop : RevA.contactsLoop o ((s.historyContacts inst.instanceName).getD [])
            fuel 0 0 [] with ws | ws | ⟨t, ids, ws⟩
        · rfl
        · rw [hloop] at hfail
        · rw [hloop] at hfail
          simp at hfail

/-- Witness for `c3_staging_after_failure`, exercising clause (a) on a
first-chunk-throwing run over one staged message and clause (d) on a
guard-blocked contact import. -/
theorem c3_staging_after_failure_witness :
    sampleStore.historyMessages sampleInst.instanceName = some [sampleMsg] ∧
    (RevB.importHistoryMessages sampleThrowDb [] sampleStore sampleInst).1 = none ∧
    (∃ n, (RevB.importHistoryMessages sampleThrowDb [] sampleStore
      sampleInst).2.1.historyMessages sampleInst.instanceName =
        some ((RevB.sortMessages [sampleMsg]).drop n)) ∧
    (RevA.importHistoryContacts sampleOracle [] 5 sampleStore sampleInst).2.1 =
      sampleStore := by
  have hrun := RevB.importHistoryMessages_first_throw sampleThrowDb [] sampleStore
    sampleInst [sampleMsg] 3 rfl rfl rfl rfl
  have hfail : (RevB.importHistoryMessages sampleThrowDb [] sampleStore sampleInst).1 = none := by
    rw [hrun]
  refine ⟨rfl, hfail, ?_, ?_⟩
  · exact (c3_staging_after_failure sampleThrowDb [] sampleStore sampleInst [sampleMsg]).1
      rfl rfl hfail
  · refine (c3_staging_after_failure sampleThrowDb [] sampleStore sampleInst [sampleMsg]).2.2.2
      sampleOracle [] 5 ?_
    rw [RevA.importHistoryContacts]
    simp only [if_pos (by decide : 0 < sampleStore.getHistoryMessagesLenght sampleInst)]

theorem RevB.messagesLoop_frame (db : RevB.MsgDb) (inst : InstanceDto)
    (k total : Nat) (table : List RevB.MessageRow) (s : Store)
    (chunk rem : List MessageRaw) :
    ∀ b, b ≠ inst.instanceName →
    (RevB.messagesLoop db inst k total table s chunk rem).2.1.historyMessages b
        = s.historyMessages b ∧
    (RevB.messagesLoop db inst k total table s chunk rem).2.1.historyContacts b
        = s.historyContacts b ∧
    (RevB.messagesLoop db inst k total table s chunk rem).2.1.repositoryMessagesCache b
        = s.repositoryMessagesCache b := by
  induction k, total, table, s, chunk, rem using RevB.messagesLoop.induct db inst with
  | case1 k total table s chunk rem hempty =>
    intro b hb
    rw [RevB.messagesLoop]
    simp [hempty, Store.deleteHistoryMessages, hb]
  | case2 k total table s chunk rem hne hstep =>
    intro b hb
    rw [RevB.messagesLoop]
    simp [hne, hstep]
  | case3 k total table s chunk rem hne fks hstep rows ih =>
    intro b hb
    rw [RevB.messagesLoop]
    simp only [hne, Bool.false_eq_true, if_false, hstep]
    rcases ih b hb with ⟨ih1, ih2, ih3⟩
    rw [ih1, ih2, ih3]
    simp [Store.setHistoryMessages, hb]

theorem RevA.importHistoryContacts_frame (o : RevA.ContactsOracle)
    (tags : List RevA.TagRow) (fuel : Nat) (s : Store) (inst : InstanceDto)
    (b : String) (hb : b ≠ inst.instanceName) :
    (RevA.importHistoryContacts o tags fuel s inst).2.1.historyMessages b
        = s.historyMessages b ∧
    (RevA.importHistoryContacts o tags fuel s inst).2.1.historyContacts b
        = s.historyContacts b ∧
    (RevA.importHistoryContacts o tags fuel s inst).2.1.repositoryMessagesCache b
        = s.repositoryMessagesCache b := by
  rw [RevA.importHistoryContacts]
  by_cases hg : 0 < s.getHistoryMessagesLenght inst
  · simp [if_pos hg]
  · simp only [if_neg hg]
    by_cases hce : ((s.historyContacts inst.instanceName).getD []).isEmpty
    · simp [hce]
    · simp only [hce, Bool.false_eq_true, if_false]
      rcases RevA.contactsLoop o ((s.historyContacts inst.instanceName).getD [])
          fuel 0 0 [] with ws | ws | ⟨t, ids, ws⟩ <;>
        simp [Store.deleteHistoryContacts, hb]

/-- C10: staging, clearing and import operations for tenant `inst` read and
write only the `Map` entries keyed by `inst.instanceName`, so for any other
key `b` every component of the staging store — staged messages, staged
contacts and the message-dedup cache — is left exactly as it was, whichever
operation runs: the appends, the cache set, the three deletes, `clearAll`,
a whole `RevA.importHistoryContacts` run and a whole
`RevB.importHistoryMessages` run. -/
theorem c10_cross_tenant_isolation (s : Store) (inst : InstanceDto) (b : String)
    (hb : b ≠ inst.instanceName) (ms : List MessageRaw) (cs : List ContactRaw)
    (cache : List String) (o : RevA.ContactsOracle) (tags : List RevA.TagRow)
    (fuel : Nat) (db : RevB.MsgDb) (table : List RevB.MessageRow) :
    ((s.addHistoryMessages inst ms).historyMessages b = s.historyMessages b ∧
      (s.addHistoryMessages inst ms).historyContacts b = s.historyContacts b ∧
      (s.addHistoryMessages inst ms).repositoryMessagesCache b
        = s.repositoryMessagesCache b) ∧
    ((s.addHistoryContacts inst cs).historyMessages b = s.historyMessages b ∧
      (s.addHistoryContacts inst cs).historyContacts b = s.historyContacts b ∧
      (s.addHistoryContacts inst cs).repositoryMessagesCache b
        = s.repositoryMessagesCache b) ∧
    ((s.setRepositoryMessagesCache inst cache).historyMessages b = s.historyMessages b ∧
      (s.setRepositoryMessagesCache inst cache).historyContacts b = s.historyContacts b ∧
      (s.setRepositoryMessagesCache inst cache).repositoryMessagesCache b
        = s.repositoryMessagesCache b) ∧
    ((s.deleteHistoryMessages inst).historyMessages b = s.historyMessages b ∧
      (s.deleteHistoryMessages inst).historyContacts b = s.historyContacts b ∧
      (s.deleteHistoryMessages inst).repositoryMessagesCache b
        = s.repositoryMessagesCache b) ∧
    ((s.deleteHistoryContacts inst).historyMessages b = s.historyMessages b ∧
      (s.deleteHistoryContacts inst).historyContacts b = s.historyContacts b ∧
      (s.deleteHistoryContacts inst).repositoryMessagesCache b
        = s.repositoryMessagesCache b) ∧
    ((s.deleteRepositoryMessagesCache inst).historyMessages b = s.historyMessages b ∧
      (s.deleteRepositoryMessagesCache inst).historyContacts b = s.historyContacts b ∧
      (s.deleteRepositoryMessagesCache inst).repositoryMessagesCache b
        = s.repositoryMessagesCache b) ∧
    ((s.clearAll inst).historyMessages b = s.historyMessages b ∧
      (s.clearAll inst).historyContacts b = s.historyContacts b ∧
      (s.clearAll inst).repositoryMessagesCache b = s.repositoryMessagesCache b) ∧
    ((RevA.importHistoryContacts o tags fuel s inst).2.1.historyMessages b
        = s.historyMessages b ∧
      (RevA.importHistoryContacts o tags fuel s inst).2.1.historyContacts b
        = s.historyContacts b ∧
      (RevA.importHistoryContacts o tags fuel s inst).2.1.repositoryMessagesCache b
        = s.repositoryMessagesCache b) ∧
    ((RevB.importHistoryMessages db table s inst).2.1.historyMessages b
        = s.historyMessages b ∧
      (RevB.importHistoryMessages db table s inst).2.1.historyContacts b
        = s.historyContacts b ∧
      (RevB.importHistoryMessages db table s inst).2.1.repositoryMessagesCache b
        = s.repositoryMessagesCache b) := by
  refine ⟨?_, ?_, ?_, ?_, ?_, ?_, ?_, ?_, ?_⟩
  · simp [Store.addHistoryMessages, hb]
  · simp [Store.addHistoryContacts, hb]
  · simp [Store.setRepositoryMessagesCache, hb]
  · simp [Store.deleteHistoryMessages, hb]
  · simp [Store.deleteHistoryContacts, hb]
  · simp [Store.deleteRepositoryMessagesCache, hb]
  · simp [Store.clearAll, Store.deleteHistoryMessages, Store.deleteHistoryContacts,
      Store.deleteRepositoryMessagesCache, hb]
  · exact RevA.importHistoryContacts_frame o tags fuel s inst b hb
  · rcases hu : db.user with _ | u
    · rw [RevB.importHistoryMessages, hu]
      exact ⟨rfl, rfl, rfl⟩
    · rcases hentry : s.historyMessages inst.instanceName with _ | msgs
      · rw [RevB.importHistoryMessages, hu, hentry]
        exact ⟨rfl, rfl, rfl⟩
      · rcases hne : msgs.isEmpty with _ | _
        · rw [RevB.importHistoryMessages, hu, hentry]
          simp only [hne, Bool.false_eq_true, if_false]
          rcases RevB.messagesLoop_frame db inst 0 0 table _ _ _ b hb with ⟨h1, h2, h3⟩
          rw [h1, h2, h3]
          simp [Store.setHistoryMessages, hb]
        · rw [RevB.importHistoryMessages, hu, hentry]
          simp [hne]

/-- Witness for `c10_cross_tenant_isolation` with tenants `tenant1` and
`other`, instantiated at the sample store and oracles. -/
theorem c10_cross_tenant_isolation_witness :
    "other" ≠ sampleInst.instanceName ∧
    ((sampleStore.clearAll sampleInst).historyMessages "other"
        = sampleStore.historyMessages "other" ∧
      (RevB.importHistoryMessages sampleOkDb [] sampleStore
        sampleInst).2.1.historyMessages "other" = sampleStore.historyMessages "other") := by
  have h := c10_cross_tenant_isolation sampleStore sampleInst "other" (by decide)
    [sampleMsg] [sampleContact] [] sampleOracle [] 5 sampleOkDb []
  exact ⟨by decide, h.2.2.2.2.2.2.1.1, h.2.2.2.2.2.2.2.2.1⟩

